import Mathlib

/-!
Verification development for the pulse repository: a Go broadcast server
(server/main.go) and a TypeScript client sync engine (src/pulse-sync.ts).
Times are modelled as rationals (milliseconds, possibly fractional); wire
millisecond stamps are produced by flooring, matching UnixMilli on the
nonnegative instants that occur in practice.  JavaScript numeric wire
fields are modelled as `Option ℚ`, where `none` stands for a value that is
missing or non-finite.
-/

namespace Pulse

/-! ## Server: pulse scheduler (server/main.go, startPulseLoop) -/

/-- Normalization at the top of startPulseLoop: a non-positive period is
replaced by one second (1000 ms). -/
def normPeriod (p : ℤ) : ℤ := if p ≤ 0 then 1000 else p

/-- UnixMilli of a wall-clock instant given in fractional milliseconds. -/
def unixMilli (t : ℚ) : ℤ := t.floor

/-- The wire struct pulseMessage built by the scheduler. -/
structure SchedMsg where
  seq : ℕ
  period_ms : ℤ
  now_ms : ℤ
  next_ms : ℤ
deriving DecidableEq, Repr

/-- One broadcast of the scheduler together with the scheduling data that
produced it: `sched` is the scheduled reference instant (the reading that
set the initial deadline for the seq-0 message, the current deadline for
later ones) and `emitT` is the clock reading taken just before the
broadcast (the value of the local variable now). -/
structure Emission where
  msg : SchedMsg
  sched : ℚ
  emitT : ℚ
deriving DecidableEq, Repr

/-- The catch-up loop at the bottom of the scheduler body: advance the
deadline by one period, then keep advancing while it is not strictly in
the future of the clock reading `t`.  For positive `p` the result is
`next + k * p` for the least `k ≥ 1` with `next + k * p > t`, which is
the closed form below. -/
def catchUp (next : ℚ) (p : ℤ) (t : ℚ) : ℚ :=
  next + (max 1 (((t - next) / (p : ℚ)).floor + 1) : ℤ) * (p : ℚ)

/-- The body of the scheduler's infinite for-loop, run over a finite trace
of clock readings: each list entry `(te, tc)` gives the reading taken for
the emitted now_ms and the reading observed by the catch-up loop of the
same iteration. -/
def pulseLoopRun (p : ℤ) : ℚ → ℕ → List (ℚ × ℚ) → List Emission
  | _, _, [] => []
  | next, seq, (te, tc) :: rest =>
      { msg := { seq := seq, period_ms := p,
                 now_ms := unixMilli te,
                 next_ms := unixMilli (next + (p : ℚ)) },
        sched := next, emitT := te }
        :: pulseLoopRun p (catchUp next p tc) (seq + 1) rest

/-- startPulseLoop: `t0` is the reading that sets the first deadline
(`next := time.Now().Add(period)`), `t1` the reading taken for the
immediate seq-0 broadcast, and `ticks` the readings of the subsequent
loop iterations. -/
def startPulseLoop (p0 : ℤ) (t0 t1 : ℚ) (ticks : List (ℚ × ℚ)) : List Emission :=
  let p := normPeriod p0
  { msg := { seq := 0, period_ms := p, now_ms := unixMilli t1,
             next_ms := unixMilli (t0 + (p : ℚ)) },
    sched := t0, emitT := t1 }
    :: pulseLoopRun p (t0 + (p : ℚ)) 1 ticks

/-- Trace admissibility for the loop iterations: clock readings are
nondecreasing, each emission reading is at least the current deadline
(time.Sleep waits at least until the deadline, and skipping the sleep
means the deadline had already passed), and the catch-up reading follows
the emission reading. -/
def admissibleTicks (p : ℤ) : ℚ → ℚ → List (ℚ × ℚ) → Bool
  | _, _, [] => true
  | next, last, (te, tc) :: rest =>
      decide (last ≤ te) && decide (next ≤ te) && decide (te ≤ tc) &&
        admissibleTicks p (catchUp next p tc) tc rest

/-- Admissibility of a whole scheduler trace. -/
def admissibleRun (p0 : ℤ) (t0 t1 : ℚ) (ticks : List (ℚ × ℚ)) : Bool :=
  decide (0 ≤ t0) && decide (t0 ≤ t1) &&
    admissibleTicks (normPeriod p0) (t0 + ((normPeriod p0 : ℤ) : ℚ)) t1 ticks

/-! ## Server: frame codec (server/main.go, wsConn.writeText) -/

/-- wsConn.writeText: the frame laid out by the Go code.  Bytes are
naturals below 256; byte(x) truncation is `% 256`, and Go's right shift
on the nonnegative length is division by a power of two. -/
def writeTextFrame (payload : List ℕ) : List ℕ :=
  let n := payload.length
  let header : List ℕ :=
    if n < 126 then [n % 256]
    else if n ≤ 65535 then [126, (n >>> 8) % 256, n % 256]
    else [127, (n >>> 56) % 256, (n >>> 48) % 256, (n >>> 40) % 256,
          (n >>> 32) % 256, (n >>> 24) % 256, (n >>> 16) % 256,
          (n >>> 8) % 256, n % 256]
  129 :: (header ++ payload)

/-- Big-endian byte string of width `k` for a natural number, as the
spec's words describe the multi-byte length encodings. -/
def beBytes : ℕ → ℕ → List ℕ
  | 0, _ => []
  | k + 1, n => (n / 256 ^ k) % 256 :: beBytes k n

/-- The frame as the spec describes it: fixed final-fragment/text byte
0x81, then the three-tier length encoding, then the payload. -/
def specFrame (payload : List ℕ) : List ℕ :=
  let n := payload.length
  let header : List ℕ :=
    if n < 126 then [n]
    else if n ≤ 65535 then 126 :: beBytes 2 n
    else 127 :: beBytes 8 n
  129 :: (header ++ payload)

/-! ## Server: connection hub (server/main.go, hub) -/

/-- The hub's membership set.  Go stores a map keyed by connection; we
model connections by identifiers, and the broadcast write outcome by an
oracle telling which connections fail.  Nodup mirrors map-key
uniqueness. -/
structure Hub where
  conns : List ℕ
deriving DecidableEq, Repr

/-- hub.remove: delete the connection from the set (and close it). -/
def Hub.removeConn (h : Hub) (c : ℕ) : Hub := ⟨h.conns.erase c⟩

/-- The write loop of broadcastJSON over the snapshot list: a failing
write removes the connection from the hub, a successful write delivers
the serialized message.  Returns the final hub and the list of
connections that received the message. -/
def runBroadcast (fails : ℕ → Bool) : List ℕ → Hub → Hub × List ℕ
  | [], h => (h, [])
  | c :: rest, h =>
      if fails c then runBroadcast fails rest (h.removeConn c)
      else
        let r := runBroadcast fails rest h
        (r.1, c :: r.2)

/-- hub.broadcastJSON: serialize once, snapshot the membership, then
write to each snapshot member. -/
def broadcastJSON (fails : ℕ → Bool) (h : Hub) : Hub × List ℕ :=
  runBroadcast fails h.conns h

/-! ## Client: data model (src/pulse-sync.ts) -/

/-- Numeric wire fields as seen by the client: `none` models a field that
is missing or non-finite. -/
structure PulseMsg where
  seq : Option ℚ
  period_ms : Option ℚ
  now_ms : Option ℚ
  next_ms : Option ℚ
deriving DecidableEq, Repr

/-- finiteOr: replace a missing/non-finite number by the fallback. -/
def finiteOr (v : Option ℚ) (fallback : ℚ) : ℚ := v.getD fallback

/-- clamp from pulse-sync.ts. -/
def clamp (v lo hi : ℚ) : ℚ := min hi (max lo v)

/-- Snapshot kept for each successfully processed pulse.  The seq field
is stored exactly as received (the code copies pulse.seq verbatim). -/
structure LastPulse where
  seq : Option ℚ
  serverNowMs : ℚ
  serverNextMs : ℚ
  periodMs : ℚ
  arrivalMonoMs : ℚ
deriving DecidableEq, Repr

/-- The configuration fields fixed by the PulseSyncClient constructor. -/
structure Config where
  thresholdMs : ℚ
  requiredStablePulses : ℕ
  allowedUnstablePulses : ℕ
  beta : ℚ
  maxBiasCorrectionMs : ℚ
  stickyLock : Bool
deriving DecidableEq, Repr

/-- Constructor options (numeric entries may be absent or non-finite). -/
structure Options where
  thresholdMs : Option ℚ
  requiredStablePulses : Option ℚ
  allowedUnstablePulses : Option ℚ
  beta : Option ℚ
  maxBiasCorrectionMs : Option ℚ
  stickyLock : Option Bool
deriving DecidableEq, Repr

/-- The PulseSyncClient constructor's normalization of its options. -/
def mkConfig (o : Options) : Config where
  thresholdMs := finiteOr o.thresholdMs 5
  requiredStablePulses := (max 1 ⌊finiteOr o.requiredStablePulses 15⌋).toNat
  allowedUnstablePulses := (max 0 ⌊finiteOr o.allowedUnstablePulses 2⌋).toNat
  beta := finiteOr o.beta (5 / 100)
  maxBiasCorrectionMs := max (1 / 1000) (finiteOr o.maxBiasCorrectionMs 25)
  stickyLock := o.stickyLock.getD true

/-- Mutable state of a PulseSyncClient.  `wsOpen` models `this.ws !==
null`. -/
structure ClientState where
  connected : Bool
  lastPulse : Option LastPulse
  lastPredictedArrivalMono : Option ℚ
  arrivalBiasMs : ℚ
  stableCount : ℕ
  recentStability : List Bool
  preserveStateOnClose : Bool
  lockOriginMonoMs : Option ℚ
  lockOriginServerMs : Option ℚ
  locked : Bool
  estimatedServerNowMs : Option ℚ
  wsOpen : Bool
deriving DecidableEq, Repr

/-- Field initializers of PulseSyncClient. -/
def initialState : ClientState where
  connected := false
  lastPulse := none
  lastPredictedArrivalMono := none
  arrivalBiasMs := 0
  stableCount := 0
  recentStability := []
  preserveStateOnClose := false
  lockOriginMonoMs := none
  lockOriginServerMs := none
  locked := false
  estimatedServerNowMs := none
  wsOpen := false

/-- Payload of the pulse CustomEvent. -/
structure PulseEventDetail where
  seq : Option ℚ
  periodMs : ℚ
  serverNowMs : ℚ
  serverNextMs : ℚ
  arrivalMonoMs : ℚ
  predictedArrivalMonoMs : Option ℚ
  errorMs : Option ℚ
  biasMs : ℚ
  stableCount : ℕ
  locked : Bool
  estimatedServerNowMs : Option ℚ
  elapsedSinceLockMs : Option ℚ
deriving DecidableEq, Repr

/-- Events dispatched by the client. -/
inductive Event where
  | status (connected : Bool)
  | lock (locked : Bool)
  | pulse (detail : PulseEventDetail)
deriving DecidableEq, Repr

/-! ## Client: projections and helpers -/

/-- serverNowMs(), evaluated at the performance.now() reading `now`. -/
def serverNowMs (s : ClientState) (now : ℚ) : Option ℚ :=
  if s.locked = false then none
  else
    match s.lockOriginMonoMs, s.lockOriginServerMs with
    | some m, some v => some (v + (now - m))
    | _, _ =>
      match s.lastPulse with
      | none => none
      | some lp => some (lp.serverNowMs + (now - lp.arrivalMonoMs))

/-- elapsedSinceLockMs(), evaluated at the reading `now`. -/
def elapsedSinceLockMs (s : ClientState) (now : ℚ) : Option ℚ :=
  if s.locked = false then none
  else
    match s.lockOriginMonoMs with
    | none => none
    | some m => some (max 0 (now - m))

/-- predictNextArrivalMonoMs(). -/
def predictNextArrivalMonoMs (s : ClientState) : Option ℚ :=
  s.lastPulse.map fun lp => lp.arrivalMonoMs + lp.periodMs + s.arrivalBiasMs

/-- stabilityTarget(): Math.max coincides with the natural-number form
because the subtraction is clamped at 1 from below anyway. -/
def stabilityTarget (cfg : Config) : ℕ :=
  max 1 (cfg.requiredStablePulses - cfg.allowedUnstablePulses)

/-- captureLockOrigin(arrivalMonoMs). -/
def captureLockOrigin (s : ClientState) (arrivalMonoMs : ℚ) : ClientState :=
  match s.lastPulse with
  | none => s
  | some lp =>
      { s with lockOriginMonoMs := some arrivalMonoMs,
               lockOriginServerMs := some lp.serverNowMs }

/-- disconnect(preserveLock). -/
def disconnect (preserveLock : Bool) (s : ClientState) : ClientState :=
  if s.wsOpen = false then s
  else { s with preserveStateOnClose := preserveLock && s.locked,
                wsOpen := false, connected := false }

/-- The close listener registered in connect(). -/
def closeEvent (s : ClientState) : ClientState × List Event :=
  let preserve := s.preserveStateOnClose
  let base : ClientState :=
    { s with preserveStateOnClose := false, connected := false, wsOpen := false }
  if preserve then (base, [Event.status false])
  else
    ({ base with locked := false, stableCount := 0, recentStability := [],
                 lockOriginMonoMs := none, lockOriginServerMs := none },
     [Event.status false])

/-- The open listener registered in connect(). -/
def openEvent (s : ClientState) : ClientState × List Event :=
  ({ s with connected := true }, [Event.status true])

/-- connect(): a no-op when a socket already exists. -/
def connect (s : ClientState) : ClientState :=
  if s.wsOpen then s else { s with wsOpen := true }

/-! ## Client: per-message pipeline (handlePulse) -/

/-- The prediction error of step 3: defined only when a previous
prediction exists. -/
def computeError (s : ClientState) (arrivalMonoMs : ℚ) : Option ℚ :=
  s.lastPredictedArrivalMono.map fun pp => arrivalMonoMs - pp

/-- The bias update of step 4. -/
def applyBias (cfg : Config) (bias : ℚ) (errorMs : Option ℚ) : ℚ :=
  match errorMs with
  | none => bias
  | some e => bias + cfg.beta * clamp e (-cfg.maxBiasCorrectionMs) cfg.maxBiasCorrectionMs

/-- The LastPulse record stored in step 5. -/
def mkLastPulse (p : PulseMsg) (arrivalMonoMs : ℚ) : LastPulse where
  seq := p.seq
  serverNowMs := finiteOr p.now_ms 0
  serverNextMs := finiteOr p.next_ms 0
  periodMs := finiteOr p.period_ms 1000
  arrivalMonoMs := arrivalMonoMs

/-- updateStability: push the inlier flag, evict the oldest entry when
over capacity, recount; a message with no error leaves window and count
untouched. -/
def pushStability (cfg : Config) (w : List Bool) (oldCount : ℕ)
    (errorMs : Option ℚ) : List Bool × ℕ :=
  match errorMs with
  | none => (w, oldCount)
  | some e =>
      let w1 := w ++ [decide (|e| ≤ cfg.thresholdMs)]
      let w2 := if cfg.requiredStablePulses < w1.length then w1.tail else w1
      (w2, w2.count true)

/-- The level-triggered lock condition of step 8. -/
def lockDecide (cfg : Config) (len count : ℕ) : Bool :=
  decide (cfg.requiredStablePulses ≤ len) && decide (stabilityTarget cfg ≤ count)

/-- Steps 2-8 of handlePulse up to (and including) the assignment of
this.locked, before the edge-transition block. -/
def coreUpdate (cfg : Config) (s : ClientState) (p : PulseMsg)
    (arrivalMonoMs : ℚ) : ClientState :=
  let errorMs := computeError s arrivalMonoMs
  let bias := applyBias cfg s.arrivalBiasMs errorMs
  let lp := mkLastPulse p arrivalMonoMs
  let wc := pushStability cfg s.recentStability s.stableCount errorMs
  { s with lastPulse := some lp,
           arrivalBiasMs := bias,
           lastPredictedArrivalMono := some (arrivalMonoMs + lp.periodMs + bias),
           recentStability := wc.1,
           stableCount := wc.2,
           locked := lockDecide cfg wc.1.length wc.2 }

/-- The edge-transition block of step 8: `wasLocked` is the lock flag
before the assignment, `s` the state after it. -/
def lockTransition (cfg : Config) (s : ClientState) (wasLocked : Bool)
    (arrivalMonoMs : ℚ) : ClientState × List Event :=
  if !wasLocked && s.locked then
    let s1 := captureLockOrigin s arrivalMonoMs
    let s2 := if cfg.stickyLock then disconnect true s1 else s1
    (s2, [Event.lock true])
  else if wasLocked && !s.locked then
    ({ s with lockOriginMonoMs := none, lockOriginServerMs := none },
     [Event.lock false])
  else (s, [])

/-- handlePulse(pulse): `arrivalMonoMs` is the performance.now() reading
of step 2; `tProj` and `tElaps` are the further readings taken by the
serverNowMs() and elapsedSinceLockMs() calls made while building the
pulse event. -/
def handlePulse (cfg : Config) (s : ClientState) (p : PulseMsg)
    (arrivalMonoMs tProj tElaps : ℚ) : ClientState × List Event :=
  if cfg.stickyLock && s.locked then (s, [])
  else
    let sC := coreUpdate cfg s p arrivalMonoMs
    let st := lockTransition cfg sC s.locked arrivalMonoMs
    let est := serverNowMs st.1 tProj
    let sF := { st.1 with estimatedServerNowMs := est }
    (sF,
     st.2 ++ [Event.pulse {
       seq := p.seq,
       periodMs := (mkLastPulse p arrivalMonoMs).periodMs,
       serverNowMs := (mkLastPulse p arrivalMonoMs).serverNowMs,
       serverNextMs := (mkLastPulse p arrivalMonoMs).serverNextMs,
       arrivalMonoMs := arrivalMonoMs,
       predictedArrivalMonoMs := s.lastPredictedArrivalMono,
       errorMs := computeError s arrivalMonoMs,
       biasMs := sF.arrivalBiasMs,
       stableCount := sF.stableCount,
       locked := sF.locked,
       estimatedServerNowMs := est,
       elapsedSinceLockMs := elapsedSinceLockMs sF tElaps }])

/-- States reachable by the client engine under a fixed configuration:
construction, message handling, and the connection lifecycle
operations. -/
inductive Reachable (cfg : Config) : ClientState → Prop
  | init : Reachable cfg initialState
  | msg (s : ClientState) (p : PulseMsg) (a tP tE : ℚ) :
      Reachable cfg s → Reachable cfg (handlePulse cfg s p a tP tE).1
  | conn (s : ClientState) : Reachable cfg s → Reachable cfg (connect s)
  | openE (s : ClientState) : Reachable cfg s → Reachable cfg (openEvent s).1
  | closeE (s : ClientState) : Reachable cfg s → Reachable cfg (closeEvent s).1
  | disc (s : ClientState) (pl : Bool) :
      Reachable cfg s → Reachable cfg (disconnect pl s)

/-! ## Concrete instances used in counterexamples and witnesses -/

/-- A configuration with a one-pulse window, two allowed outliers and
sticky lock off (every field is legal for the constructor). -/
def cfgC4 : Config := ⟨5, 1, 2, 0, 25, false⟩

/-- A configuration that locks after a single stable pulse. -/
def cfgLck : Config := ⟨5, 1, 0, 0, 25, false⟩

/-- A well-formed wire message: seq 0, period 1000, now 0, next 1000. -/
def msgA : PulseMsg := ⟨some 0, some 1000, some 0, some 1000⟩

/-- A wire message whose numeric fields are all missing or non-finite. -/
def mNone : PulseMsg := ⟨none, none, none, none⟩

/-- The client state after connecting and processing one pulse at local
time 0: the pulse left a prediction for local time 1000. -/
def s1c : ClientState :=
  (handlePulse cfgC4 (openEvent (connect initialState)).1 msgA 0 0 0).1

/-- The client state after a further disconnect without preserveLock,
the socket-close event, and a reconnect. -/
def c8state : ClientState :=
  (openEvent (connect (closeEvent (disconnect false s1c)).1)).1

/-! ## Helper lemmas: scheduler -/

/-- Rat.floor agrees with the floor of the archimedean order structure. -/
theorem ratFloor_eq (t : ℚ) : t.floor = ⌊t⌋ := by
  rw [Rat.floor_def', ← Rat.floor_def]

/-- Shape of every message produced inside the scheduler loop: now_ms is
the floored emission reading and next_ms is the floored current deadline
plus one period. -/
theorem pulseLoopRun_fields (p : ℤ) (ticks : List (ℚ × ℚ)) :
    ∀ (next : ℚ) (seq : ℕ) (e : Emission), e ∈ pulseLoopRun p next seq ticks →
      e.msg.period_ms = p ∧ e.msg.now_ms = ⌊e.emitT⌋ ∧ e.msg.next_ms = ⌊e.sched⌋ + p := by
  induction ticks with
  | nil => intro next seq e h; simp [pulseLoopRun] at h
  | cons tk rest ih =>
      intro next seq e h
      rw [pulseLoopRun] at h
      rcases List.mem_cons.mp h with h | h
      · subst h
        refine ⟨rfl, ?_, ?_⟩
        · simp [unixMilli, ratFloor_eq]
        · simp [unixMilli, ratFloor_eq, Int.floor_add_int]
      · exact ih (catchUp next p tk.2) (seq + 1) e h

/-- Shape of every message of a scheduler run, the immediate seq-0
broadcast included. -/
theorem startPulseLoop_fields (p0 : ℤ) (t0 t1 : ℚ) (ticks : List (ℚ × ℚ))
    (e : Emission) (h : e ∈ startPulseLoop p0 t0 t1 ticks) :
    e.msg.period_ms = normPeriod p0 ∧ e.msg.now_ms = ⌊e.emitT⌋ ∧
      e.msg.next_ms = ⌊e.sched⌋ + normPeriod p0 := by
  rw [startPulseLoop] at h
  rcases List.mem_cons.mp h with h | h
  · subst h
    refine ⟨rfl, ?_, ?_⟩
    · simp [unixMilli, ratFloor_eq]
    · simp [unixMilli, ratFloor_eq, Int.floor_add_int]
  · exact pulseLoopRun_fields (normPeriod p0) ticks _ 1 e h

/-! ## C1: next_ms - now_ms versus period_ms -/

/-- C1 counterexample: an admissible run of the scheduler with period
1000 ms, whose two startup clock readings fall one millisecond apart,
broadcasts the seq-0 message with next_ms - now_ms = 999, not the period.
So the claimed equation does not hold for every broadcast. -/
theorem c1_counterexample :
    admissibleRun 1000 0 1 [] = true ∧
      ∃ e ∈ startPulseLoop 1000 0 1 [],
        e.msg.next_ms - e.msg.now_ms ≠ e.msg.period_ms := by
  have hrun : startPulseLoop 1000 0 1 [] =
      [{ msg := { seq := 0, period_ms := 1000, now_ms := 1, next_ms := 1000 },
         sched := 0, emitT := 1 }] := by
    simp [startPulseLoop, pulseLoopRun, unixMilli, normPeriod, ratFloor_eq]
  constructor
  · simp [admissibleRun, admissibleTicks]
  · rw [hrun]; simp

/-- C1 amended: a broadcast message satisfies next_ms - now_ms =
period_ms exactly on the ticks whose emission-time clock reading falls in
the same wall-clock millisecond as the scheduled reference instant (for
seq 0: as the reading that set the schedule); in general the difference
is the period minus the whole-millisecond delay between the two. -/
theorem c1_next_now_period (p0 : ℤ) (t0 t1 : ℚ) (ticks : List (ℚ × ℚ))
    (e : Emission) (he : e ∈ startPulseLoop p0 t0 t1 ticks) :
    e.msg.next_ms - e.msg.now_ms = normPeriod p0 - (⌊e.emitT⌋ - ⌊e.sched⌋) ∧
      (⌊e.emitT⌋ = ⌊e.sched⌋ → e.msg.next_ms - e.msg.now_ms = normPeriod p0) := by
  obtain ⟨_, hnow, hnext⟩ := startPulseLoop_fields p0 t0 t1 ticks e he
  constructor
  · omega
  · intro h; omega

/-- C1 witness: on the run whose startup readings coincide, the theorem
yields the exact period difference for the seq-0 message. -/
theorem c1_next_now_period_witness :
    (⟨⟨0, 1000, 0, 1000⟩, 0, 0⟩ : Emission) ∈ startPulseLoop 1000 0 0 [] ∧
      (⟨⟨0, 1000, 0, 1000⟩, 0, 0⟩ : Emission).msg.next_ms -
        (⟨⟨0, 1000, 0, 1000⟩, 0, 0⟩ : Emission).msg.now_ms = normPeriod 1000 := by
  have hrun : startPulseLoop 1000 0 0 [] = [⟨⟨0, 1000, 0, 1000⟩, 0, 0⟩] := by
    simp [startPulseLoop, pulseLoopRun, unixMilli, normPeriod, ratFloor_eq]
  have hmem : (⟨⟨0, 1000, 0, 1000⟩, 0, 0⟩ : Emission) ∈ startPulseLoop 1000 0 0 [] := by
    rw [hrun]; simp
  exact ⟨hmem, (c1_next_now_period 1000 0 0 [] _ hmem).2 rfl⟩

/-! ## C3: next_ms never in the past -/

/-- C3 counterexample: an admissible run (period 1000 ms) in which the
loop wakes 1001 ms after the scheduled tick broadcasts that tick with
next_ms = 2000 while now_ms = 2001: the emitted next_ms lies in the past
at emission. -/
theorem c3_counterexample :
    admissibleRun 1000 0 0 [(2001, 2001)] = true ∧
      ∃ e ∈ startPulseLoop 1000 0 0 [(2001, 2001)],
        e.msg.next_ms < e.msg.now_ms := by
  have hrun : startPulseLoop 1000 0 0 [(2001, 2001)] =
      [{ msg := { seq := 0, period_ms := 1000, now_ms := 0, next_ms := 1000 },
         sched := 0, emitT := 0 },
       { msg := { seq := 1, period_ms := 1000, now_ms := 2001, next_ms := 2000 },
         sched := 1000, emitT := 2001 }] := by
    simp [startPulseLoop, pulseLoopRun, unixMilli, normPeriod, ratFloor_eq]
  constructor
  · simp [admissibleRun, admissibleTicks, normPeriod]
    norm_num
  · rw [hrun]
    exact ⟨⟨⟨1, 1000, 2001, 2000⟩, 1000, 2001⟩, by simp, by simp⟩

/-- C3 amended: an emitted message carries a next_ms in the past exactly
when the emission-time clock reading is more than one period (in whole
milliseconds) past the message's scheduled reference instant; in
particular next_ms is never in the past as long as every emission happens
within one period of its schedule. -/
theorem c3_next_not_past_iff (p0 : ℤ) (t0 t1 : ℚ) (ticks : List (ℚ × ℚ))
    (e : Emission) (he : e ∈ startPulseLoop p0 t0 t1 ticks) :
    e.msg.now_ms ≤ e.msg.next_ms ↔ ⌊e.emitT⌋ ≤ ⌊e.sched⌋ + normPeriod p0 := by
  obtain ⟨_, hnow, hnext⟩ := startPulseLoop_fields p0 t0 t1 ticks e he
  omega

/-- C3 witness: for the run whose startup readings coincide, the theorem
shows the seq-0 message's next_ms is not in the past. -/
theorem c3_next_not_past_witness :
    (⟨⟨0, 1000, 0, 1000⟩, 0, 0⟩ : Emission) ∈ startPulseLoop 1000 0 0 [] ∧
      (⟨⟨0, 1000, 0, 1000⟩, 0, 0⟩ : Emission).msg.now_ms ≤
        (⟨⟨0, 1000, 0, 1000⟩, 0, 0⟩ : Emission).msg.next_ms := by
  have hrun : startPulseLoop 1000 0 0 [] = [⟨⟨0, 1000, 0, 1000⟩, 0, 0⟩] := by
    simp [startPulseLoop, pulseLoopRun, unixMilli, normPeriod, ratFloor_eq]
  have hmem : (⟨⟨0, 1000, 0, 1000⟩, 0, 0⟩ : Emission) ∈ startPulseLoop 1000 0 0 [] := by
    rw [hrun]; simp
  refine ⟨hmem, (c3_next_not_past_iff 1000 0 0 [] _ hmem).mpr ?_⟩
  simp [normPeriod]

/-! ## C6: three-tier frame length encoding -/

/-- C6: the frame written by wsConn.writeText is exactly the fixed
final-fragment/text byte 0x81, followed by the three-tier length
encoding described by the spec (single byte below 126; sentinel 126 plus
2-byte big-endian up to 65535; sentinel 127 plus 8-byte big-endian
beyond), followed by the payload. -/
theorem c6_frame_encoding (payload : List ℕ) :
    writeTextFrame payload = specFrame payload := by
  rw [writeTextFrame, specFrame]
  by_cases h1 : payload.length < 126
  · simp only [h1, if_true]
    rw [Nat.mod_eq_of_lt (show payload.length < 256 by omega)]
  · by_cases h2 : payload.length ≤ 65535
    · simp only [h1, h2, if_false, if_true, beBytes]
      have hd : payload.length >>> 8 = payload.length / 256 ^ 1 :=
        Nat.shiftRight_eq_div_pow payload.length 8
      rw [hd, Nat.mod_eq_of_lt (show payload.length / 256 ^ 1 < 256 by omega)]
      norm_num
    · simp only [h1, h2, if_false, beBytes]
      refine congrArg (129 :: ·) (congrArg (· ++ payload) ?_)
      simp only [Nat.shiftRight_eq_div_pow]
      norm_num

/-! ## C5: hub broadcast delivery and removal -/

/-- The delivered list of the broadcast write loop is exactly the
snapshot filtered to the connections whose write succeeds; it does not
depend on the hub the loop mutates. -/
theorem runBroadcast_delivered (fails : ℕ → Bool) (l : List ℕ) :
    ∀ h : Hub, (runBroadcast fails l h).2 = l.filter (fun c => !fails c) := by
  induction l with
  | nil => intro h; simp [runBroadcast]
  | cons a rest ih =>
      intro h
      by_cases ha : fails a <;> simp [runBroadcast, ha, ih]

/-- The broadcast write loop only ever removes connections. -/
theorem runBroadcast_conns_subset (fails : ℕ → Bool) (l : List ℕ) :
    ∀ h : Hub, (runBroadcast fails l h).1.conns ⊆ h.conns := by
  induction l with
  | nil => intro h; simp [runBroadcast]
  | cons a rest ih =>
      intro h
      by_cases ha : fails a
      · simp only [runBroadcast, ha, if_true]
        exact (ih (h.removeConn a)).trans (List.erase_subset _ _)
      · simp only [runBroadcast, ha, if_false]
        exact ih h

/-- A connection whose write succeeds is never removed by the loop. -/
theorem runBroadcast_mem_preserved (fails : ℕ → Bool) (l : List ℕ) (c : ℕ)
    (hc : fails c = false) :
    ∀ h : Hub, c ∈ h.conns → c ∈ (runBroadcast fails l h).1.conns := by
  induction l with
  | nil => intro h hm; simpa [runBroadcast] using hm
  | cons a rest ih =>
      intro h hm
      by_cases ha : fails a
      · have hne : c ≠ a := fun he => by rw [he] at hc; rw [hc] at ha; cases ha
        simp only [runBroadcast, ha, if_true]
        exact ih (h.removeConn a) (List.mem_erase_of_ne hne |>.mpr hm)
      · simp only [runBroadcast, ha, if_false]
        exact ih h hm

/-- A snapshot connection whose write fails is removed by the loop. -/
theorem runBroadcast_removed (fails : ℕ → Bool) (l : List ℕ) (c : ℕ)
    (hc : fails c = true) :
    ∀ h : Hub, h.conns.Nodup → c ∈ l → c ∉ (runBroadcast fails l h).1.conns := by
  induction l with
  | nil => intro h _ hm; cases hm
  | cons a rest ih =>
      intro h hnd hm
      by_cases ha : fails a
      · simp only [runBroadcast, ha, if_true]
        by_cases hca : c = a
        · subst hca
          intro hmem
          exact (hnd.mem_erase_iff.mp (runBroadcast_conns_subset fails rest _ hmem)).1 rfl
        · rcases List.mem_cons.mp hm with he | hm2
          · exact absurd he hca
          · exact ih (h.removeConn a) (hnd.erase a) hm2
      · simp only [runBroadcast, ha, if_false]
        have hca : c ≠ a := by
          intro he; exact ha (he ▸ hc)
        rcases List.mem_cons.mp hm with he | hm2
        · exact absurd he hca
        · exact ih h hnd hm2

/-- C5: for every broadcast, each connection in the membership snapshot
either receives the serialized message (exactly when its own write
succeeds, independent of the other members' failures) or is removed from
the hub; failing writes remove only the failing member. -/
theorem c5_broadcast_delivery (fails : ℕ → Bool) (h : Hub)
    (hnd : h.conns.Nodup) (c : ℕ) (hc : c ∈ h.conns) :
    (fails c = false →
        c ∈ (broadcastJSON fails h).2 ∧ c ∈ (broadcastJSON fails h).1.conns) ∧
      (fails c = true →
        c ∉ (broadcastJSON fails h).1.conns ∧ c ∉ (broadcastJSON fails h).2) := by
  constructor
  · intro hok
    constructor
    · rw [broadcastJSON, runBroadcast_delivered]
      simp [List.mem_filter, hc, hok]
    · exact runBroadcast_mem_preserved fails h.conns c hok h hc
  · intro hbad
    constructor
    · exact runBroadcast_removed fails h.conns c hbad h hnd hc
    · rw [broadcastJSON, runBroadcast_delivered]
      simp [List.mem_filter, hbad]

/-- C5 witness: a hub of three connections where only connection 2
fails: connections 1 and 3 still receive the message, and 2 is removed. -/
theorem c5_broadcast_delivery_witness :
    (⟨[1, 2, 3]⟩ : Hub).conns.Nodup ∧
      1 ∈ (broadcastJSON (fun n => n == 2) ⟨[1, 2, 3]⟩).2 ∧
      3 ∈ (broadcastJSON (fun n => n == 2) ⟨[1, 2, 3]⟩).2 ∧
      2 ∉ (broadcastJSON (fun n => n == 2) ⟨[1, 2, 3]⟩).1.conns := by
  have hnd : (⟨[1, 2, 3]⟩ : Hub).conns.Nodup := by decide
  refine ⟨hnd, ?_, ?_, ?_⟩
  · exact ((c5_broadcast_delivery (fun n => n == 2) ⟨[1, 2, 3]⟩ hnd 1
      (by decide)).1 (by decide)).1
  · exact ((c5_broadcast_delivery (fun n => n == 2) ⟨[1, 2, 3]⟩ hnd 3
      (by decide)).1 (by decide)).1
  · exact ((c5_broadcast_delivery (fun n => n == 2) ⟨[1, 2, 3]⟩ hnd 2
      (by decide)).2 (by decide)).1

/-! ## Helper lemmas: client pipeline projections -/

@[simp] theorem disconnect_locked (pl : Bool) (s : ClientState) :
    (disconnect pl s).locked = s.locked := by
  unfold disconnect; split <;> rfl

@[simp] theorem disconnect_originM (pl : Bool) (s : ClientState) :
    (disconnect pl s).lockOriginMonoMs = s.lockOriginMonoMs := by
  unfold disconnect; split <;> rfl

@[simp] theorem disconnect_originS (pl : Bool) (s : ClientState) :
    (disconnect pl s).lockOriginServerMs = s.lockOriginServerMs := by
  unfold disconnect; split <;> rfl

@[simp] theorem disconnect_window (pl : Bool) (s : ClientState) :
    (disconnect pl s).recentStability = s.recentStability := by
  unfold disconnect; split <;> rfl

@[simp] theorem disconnect_count (pl : Bool) (s : ClientState) :
    (disconnect pl s).stableCount = s.stableCount := by
  unfold disconnect; split <;> rfl

@[simp] theorem disconnect_lastPulse (pl : Bool) (s : ClientState) :
    (disconnect pl s).lastPulse = s.lastPulse := by
  unfold disconnect; split <;> rfl

@[simp] theorem disconnect_lastPredicted (pl : Bool) (s : ClientState) :
    (disconnect pl s).lastPredictedArrivalMono = s.lastPredictedArrivalMono := by
  unfold disconnect; split <;> rfl

@[simp] theorem capture_locked (s : ClientState) (a : ℚ) :
    (captureLockOrigin s a).locked = s.locked := by
  cases hl : s.lastPulse <;> simp [captureLockOrigin, hl]

@[simp] theorem capture_window (s : ClientState) (a : ℚ) :
    (captureLockOrigin s a).recentStability = s.recentStability := by
  cases hl : s.lastPulse <;> simp [captureLockOrigin, hl]

@[simp] theorem capture_count (s : ClientState) (a : ℚ) :
    (captureLockOrigin s a).stableCount = s.stableCount := by
  cases hl : s.lastPulse <;> simp [captureLockOrigin, hl]

@[simp] theorem capture_lastPulse (s : ClientState) (a : ℚ) :
    (captureLockOrigin s a).lastPulse = s.lastPulse := by
  cases hl : s.lastPulse <;> simp [captureLockOrigin, hl]

@[simp] theorem capture_lastPredicted (s : ClientState) (a : ℚ) :
    (captureLockOrigin s a).lastPredictedArrivalMono = s.lastPredictedArrivalMono := by
  cases hl : s.lastPulse <;> simp [captureLockOrigin, hl]

theorem lockTransition_locked (cfg : Config) (s : ClientState) (w : Bool) (a : ℚ) :
    (lockTransition cfg s w a).1.locked = s.locked := by
  unfold lockTransition
  by_cases h1 : (!w && s.locked) = true
  · simp only [h1, if_true]
    by_cases hs : cfg.stickyLock <;> simp [hs]
  · simp only [h1, if_false]
    by_cases h2 : (w && !s.locked) = true <;> simp [h2]

theorem lockTransition_window (cfg : Config) (s : ClientState) (w : Bool) (a : ℚ) :
    (lockTransition cfg s w a).1.recentStability = s.recentStability := by
  unfold lockTransition
  by_cases h1 : (!w && s.locked) = true
  · simp only [h1, if_true]
    by_cases hs : cfg.stickyLock <;> simp [hs]
  · simp only [h1, if_false]
    by_cases h2 : (w && !s.locked) = true <;> simp [h2]

theorem lockTransition_count (cfg : Config) (s : ClientState) (w : Bool) (a : ℚ) :
    (lockTransition cfg s w a).1.stableCount = s.stableCount := by
  unfold lockTransition
  by_cases h1 : (!w && s.locked) = true
  · simp only [h1, if_true]
    by_cases hs : cfg.stickyLock <;> simp [hs]
  · simp only [h1, if_false]
    by_cases h2 : (w && !s.locked) = true <;> simp [h2]

theorem lockTransition_lastPulse (cfg : Config) (s : ClientState) (w : Bool) (a : ℚ) :
    (lockTransition cfg s w a).1.lastPulse = s.lastPulse := by
  unfold lockTransition
  by_cases h1 : (!w && s.locked) = true
  · simp only [h1, if_true]
    by_cases hs : cfg.stickyLock <;> simp [hs]
  · simp only [h1, if_false]
    by_cases h2 : (w && !s.locked) = true <;> simp [h2]

theorem lockTransition_lastPredicted (cfg : Config) (s : ClientState) (w : Bool) (a : ℚ) :
    (lockTransition cfg s w a).1.lastPredictedArrivalMono = s.lastPredictedArrivalMono := by
  unfold lockTransition
  by_cases h1 : (!w && s.locked) = true
  · simp only [h1, if_true]
    by_cases hs : cfg.stickyLock <;> simp [hs]
  · simp only [h1, if_false]
    by_cases h2 : (w && !s.locked) = true <;> simp [h2]

theorem handlePulse_discard (cfg : Config) (s : ClientState) (p : PulseMsg)
    (a tP tE : ℚ) (h : (cfg.stickyLock && s.locked) = true) :
    handlePulse cfg s p a tP tE = (s, []) := by
  simp [handlePulse, h]

theorem handlePulse_fst (cfg : Config) (s : ClientState) (p : PulseMsg)
    (a tP tE : ℚ) (h : (cfg.stickyLock && s.locked) = false) :
    (handlePulse cfg s p a tP tE).1 =
      { (lockTransition cfg (coreUpdate cfg s p a) s.locked a).1 with
        estimatedServerNowMs :=
          serverNowMs (lockTransition cfg (coreUpdate cfg s p a) s.locked a).1 tP } := by
  simp only [handlePulse, h, Bool.false_eq_true, if_false]

@[simp] theorem coreUpdate_locked (cfg : Config) (s : ClientState) (p : PulseMsg) (a : ℚ) :
    (coreUpdate cfg s p a).locked =
      lockDecide cfg
        (pushStability cfg s.recentStability s.stableCount (computeError s a)).1.length
        (pushStability cfg s.recentStability s.stableCount (computeError s a)).2 := rfl

@[simp] theorem coreUpdate_window (cfg : Config) (s : ClientState) (p : PulseMsg) (a : ℚ) :
    (coreUpdate cfg s p a).recentStability =
      (pushStability cfg s.recentStability s.stableCount (computeError s a)).1 := rfl

@[simp] theorem coreUpdate_count (cfg : Config) (s : ClientState) (p : PulseMsg) (a : ℚ) :
    (coreUpdate cfg s p a).stableCount =
      (pushStability cfg s.recentStability s.stableCount (computeError s a)).2 := rfl

@[simp] theorem coreUpdate_lastPulse (cfg : Config) (s : ClientState) (p : PulseMsg) (a : ℚ) :
    (coreUpdate cfg s p a).lastPulse = some (mkLastPulse p a) := rfl

@[simp] theorem coreUpdate_originM (cfg : Config) (s : ClientState) (p : PulseMsg) (a : ℚ) :
    (coreUpdate cfg s p a).lockOriginMonoMs = s.lockOriginMonoMs := rfl

@[simp] theorem coreUpdate_originS (cfg : Config) (s : ClientState) (p : PulseMsg) (a : ℚ) :
    (coreUpdate cfg s p a).lockOriginServerMs = s.lockOriginServerMs := rfl

/-! ## Helper lemmas: reachable-state invariants -/

/-- In every reachable state the lock flag agrees with the level-triggered
lock condition over the current stability window and count (the close
handler clears all three together; handlePulse recomputes the flag from
the updated window on every non-discarded message). -/
theorem reachable_locked_eq (cfg : Config) (hReq : 1 ≤ cfg.requiredStablePulses)
    {s : ClientState} (hr : Reachable cfg s) :
    s.locked = lockDecide cfg s.recentStability.length s.stableCount := by
  have h0 : ¬(cfg.requiredStablePulses ≤ 0) := by omega
  induction hr with
  | init => simp [initialState, lockDecide, h0]
  | msg s p a tP tE hr ih =>
      by_cases hd : (cfg.stickyLock && s.locked) = true
      · rw [handlePulse_discard cfg s p a tP tE hd]; exact ih
      · have hd2 : (cfg.stickyLock && s.locked) = false := by
          revert hd; cases cfg.stickyLock && s.locked <;> simp
        rw [handlePulse_fst cfg s p a tP tE hd2]
        show (lockTransition cfg (coreUpdate cfg s p a) s.locked a).1.locked =
          lockDecide cfg
            (lockTransition cfg (coreUpdate cfg s p a) s.locked a).1.recentStability.length
            (lockTransition cfg (coreUpdate cfg s p a) s.locked a).1.stableCount
        rw [lockTransition_locked, lockTransition_window, lockTransition_count,
          coreUpdate_locked, coreUpdate_window, coreUpdate_count]
  | conn s hr ih =>
      unfold connect; split
      · exact ih
      · exact ih
  | openE s hr ih => exact ih
  | closeE s hr ih =>
      by_cases hp : s.preserveStateOnClose = true
      · simpa [closeEvent, hp] using ih
      · have hp2 : s.preserveStateOnClose = false := by
          revert hp; cases s.preserveStateOnClose <;> simp
        simp [closeEvent, hp2, lockDecide, h0]
  | disc s pl hr ih =>
      unfold disconnect; split
      · exact ih
      · exact ih

/-- In every reachable state, a held lock comes with both lock-origin
fields populated. -/
theorem reachable_origin (cfg : Config) {s : ClientState} (hr : Reachable cfg s) :
    s.locked = true →
      ∃ m v, s.lockOriginMonoMs = some m ∧ s.lockOriginServerMs = some v := by
  induction hr with
  | init => intro h; simp [initialState] at h
  | msg s p a tP tE hr ih =>
      by_cases hd : (cfg.stickyLock && s.locked) = true
      · rw [handlePulse_discard cfg s p a tP tE hd]; exact ih
      · have hd2 : (cfg.stickyLock && s.locked) = false := by
          revert hd; cases cfg.stickyLock && s.locked <;> simp
        rw [handlePulse_fst cfg s p a tP tE hd2]
        intro hl
        replace hl : (lockTransition cfg (coreUpdate cfg s p a) s.locked a).1.locked = true := hl
        show ∃ m v,
          (lockTransition cfg (coreUpdate cfg s p a) s.locked a).1.lockOriginMonoMs = some m ∧
            (lockTransition cfg (coreUpdate cfg s p a) s.locked a).1.lockOriginServerMs = some v
        rw [lockTransition_locked] at hl
        unfold lockTransition
        by_cases h1 : (!s.locked && (coreUpdate cfg s p a).locked) = true
        · simp only [h1, if_true]
          by_cases hs : cfg.stickyLock = true
          · refine ⟨a, (mkLastPulse p a).serverNowMs, ?_, ?_⟩ <;>
              simp [hs, captureLockOrigin]
          · have hs2 : cfg.stickyLock = false := by
              revert hs; cases cfg.stickyLock <;> simp
            refine ⟨a, (mkLastPulse p a).serverNowMs, ?_, ?_⟩ <;>
              simp [hs2, captureLockOrigin]
        · have h2 : ¬((s.locked && !(coreUpdate cfg s p a).locked) = true) := by
            rw [hl] at h1 ⊢
            revert h1; cases s.locked <;> simp
          simp only [h1, h2, if_false]
          have hsl : s.locked = true := by
            rw [hl] at h1; revert h1; cases s.locked <;> simp
          obtain ⟨m, v, hm, hv⟩ := ih hsl
          exact ⟨m, v, by simpa using hm, by simpa using hv⟩
  | conn s hr ih =>
      unfold connect; split
      · exact ih
      · intro hl
        obtain ⟨m, v, hm, hv⟩ := ih hl
        exact ⟨m, v, hm, hv⟩
  | openE s hr ih =>
      intro hl
      obtain ⟨m, v, hm, hv⟩ := ih hl
      exact ⟨m, v, hm, hv⟩
  | closeE s hr ih =>
      by_cases hp : s.preserveStateOnClose = true
      · intro hl
        have hl2 : s.locked = true := by simpa [closeEvent, hp] using hl
        obtain ⟨m, v, hm, hv⟩ := ih hl2
        exact ⟨m, v, by simpa [closeEvent, hp] using hm, by simpa [closeEvent, hp] using hv⟩
      · have hp2 : s.preserveStateOnClose = false := by
          revert hp; cases s.preserveStateOnClose <;> simp
        intro hl
        simp [closeEvent, hp2] at hl
  | disc s pl hr ih =>
      intro hl
      obtain ⟨m, v, hm, hv⟩ := ih (by simpa using hl)
      exact ⟨m, v, by simpa using hm, by simpa using hv⟩

/-- Event list of a non-discarded handlePulse call: the lock-transition
events followed by exactly one pulse event with the recorded fields. -/
theorem handlePulse_events (cfg : Config) (s : ClientState) (p : PulseMsg)
    (a tP tE : ℚ) (h : (cfg.stickyLock && s.locked) = false) :
    (handlePulse cfg s p a tP tE).2 =
      (lockTransition cfg (coreUpdate cfg s p a) s.locked a).2 ++
        [Event.pulse
          { seq := p.seq,
            periodMs := (mkLastPulse p a).periodMs,
            serverNowMs := (mkLastPulse p a).serverNowMs,
            serverNextMs := (mkLastPulse p a).serverNextMs,
            arrivalMonoMs := a,
            predictedArrivalMonoMs := s.lastPredictedArrivalMono,
            errorMs := computeError s a,
            biasMs := (lockTransition cfg (coreUpdate cfg s p a) s.locked a).1.arrivalBiasMs,
            stableCount := (lockTransition cfg (coreUpdate cfg s p a) s.locked a).1.stableCount,
            locked := (lockTransition cfg (coreUpdate cfg s p a) s.locked a).1.locked,
            estimatedServerNowMs :=
              serverNowMs (lockTransition cfg (coreUpdate cfg s p a) s.locked a).1 tP,
            elapsedSinceLockMs :=
              elapsedSinceLockMs
                { (lockTransition cfg (coreUpdate cfg s p a) s.locked a).1 with
                  estimatedServerNowMs :=
                    serverNowMs (lockTransition cfg (coreUpdate cfg s p a) s.locked a).1 tP }
                tE }] := by
  simp only [handlePulse, h, Bool.false_eq_true, if_false]

/-- A non-discarded handlePulse call always runs to completion: its event
list contains a pulse event whose errorMs is the prediction error against
the pre-message state and whose seq is the raw wire seq. -/
theorem handlePulse_pulse_mem (cfg : Config) (s : ClientState) (p : PulseMsg)
    (a tP tE : ℚ) (h : (cfg.stickyLock && s.locked) = false) :
    ∃ d, Event.pulse d ∈ (handlePulse cfg s p a tP tE).2 ∧
      d.errorMs = computeError s a ∧ d.seq = p.seq := by
  rw [handlePulse_events cfg s p a tP tE h]
  exact ⟨_, List.mem_append_right _ (List.mem_singleton_self _), rfl, rfl⟩

/-! ## C2: serverNowMs when not locked -/

/-- C2 counterexample: a client that has accepted one pulse but is not
locked; serverNowMs returns none (undefined), not the last-pulse-based
estimate the claim demands. -/
theorem c2_counterexample :
    (handlePulse cfgC4 initialState msgA 0 0 0).1.locked = false ∧
      (handlePulse cfgC4 initialState msgA 0 0 0).1.lastPulse =
        some ⟨some 0, 0, 1000, 1000, 0⟩ ∧
      serverNowMs (handlePulse cfgC4 initialState msgA 0 0 0).1 5 = none := by
  refine ⟨?_, ?_, ?_⟩ <;>
    norm_num [handlePulse, coreUpdate, lockTransition, lockDecide, pushStability,
      computeError, applyBias, mkLastPulse, finiteOr, clamp, stabilityTarget,
      captureLockOrigin, disconnect, serverNowMs, elapsedSinceLockMs, initialState,
      cfgC4, msgA]

/-- C2 amended: serverNowMs is undefined (none) whenever the client is
not locked, even if a pulse has been accepted; the last-pulse-based
estimate is computed only in the state where locked is true but a lock
origin is missing. -/
theorem c2_server_now_semantics (s : ClientState) (t : ℚ) :
    (s.locked = false → serverNowMs s t = none) ∧
      (s.locked = true →
        (s.lockOriginMonoMs = none ∨ s.lockOriginServerMs = none) →
        ∀ lp, s.lastPulse = some lp →
          serverNowMs s t = some (lp.serverNowMs + (t - lp.arrivalMonoMs))) := by
  constructor
  · intro h
    simp [serverNowMs, h]
  · intro hl hor lp hlp
    rcases hor with h | h
    · simp [serverNowMs, hl, h, hlp]
    · cases hm : s.lockOriginMonoMs <;> simp [serverNowMs, hl, h, hm, hlp]

/-- C2 witness: the fresh state is unlocked and projects to none; a
locked state with no lock origin and a stored pulse projects from the
pulse. -/
theorem c2_server_now_semantics_witness :
    serverNowMs initialState 5 = none ∧
      serverNowMs
        { initialState with locked := true,
                            lastPulse := some ⟨some 0, 0, 1000, 1000, 0⟩ } 7 =
        some (0 + (7 - 0)) :=
  ⟨(c2_server_now_semantics initialState 5).1 rfl,
   (c2_server_now_semantics
      { initialState with locked := true,
                          lastPulse := some ⟨some 0, 0, 1000, 1000, 0⟩ } 7).2
     rfl (Or.inl rfl) ⟨some 0, 0, 1000, 1000, 0⟩ rfl⟩

/-! ## C4: lock condition -/

/-- C4 counterexample: with requiredStablePulses = 1 and
allowedUnstablePulses = 2, after two pulses whose second is a large
outlier, the window is full and stableCount (0) is at least
required - allowed (which is negative), yet the client is not locked:
the code additionally clamps the stability target at 1. -/
theorem c4_counterexample :
    (handlePulse cfgC4 (handlePulse cfgC4 initialState msgA 0 0 0).1
        msgA 5000 5000 5000).1.locked = false ∧
      cfgC4.requiredStablePulses ≤
        (handlePulse cfgC4 (handlePulse cfgC4 initialState msgA 0 0 0).1
          msgA 5000 5000 5000).1.recentStability.length ∧
      (cfgC4.requiredStablePulses : ℤ) - (cfgC4.allowedUnstablePulses : ℤ) ≤
        ((handlePulse cfgC4 (handlePulse cfgC4 initialState msgA 0 0 0).1
          msgA 5000 5000 5000).1.stableCount : ℤ) := by
  refine ⟨?_, ?_, ?_⟩ <;>
    norm_num [handlePulse, coreUpdate, lockTransition, lockDecide, pushStability,
      computeError, applyBias, mkLastPulse, finiteOr, clamp, stabilityTarget,
      captureLockOrigin, disconnect, serverNowMs, elapsedSinceLockMs, initialState,
      cfgC4, msgA]

/-- C4 amended: after every message processed from a reachable state,
locked is true iff the stability queue is full (length at least
requiredStablePulses) and stableCount is at least
max(1, requiredStablePulses - allowedUnstablePulses), the clamped
stability target the code computes. -/
theorem c4_lock_iff (cfg : Config) (s : ClientState) (p : PulseMsg)
    (a tP tE : ℚ) (hReq : 1 ≤ cfg.requiredStablePulses) (hr : Reachable cfg s) :
    (handlePulse cfg s p a tP tE).1.locked = true ↔
      cfg.requiredStablePulses ≤
          (handlePulse cfg s p a tP tE).1.recentStability.length ∧
        stabilityTarget cfg ≤ (handlePulse cfg s p a tP tE).1.stableCount := by
  rw [reachable_locked_eq cfg hReq (Reachable.msg s p a tP tE hr)]
  simp [lockDecide]

/-- C4 witness: instantiated on the initial state and one message. -/
theorem c4_lock_iff_witness :
    1 ≤ cfgC4.requiredStablePulses ∧
      ((handlePulse cfgC4 initialState msgA 0 0 0).1.locked = true ↔
        cfgC4.requiredStablePulses ≤
            (handlePulse cfgC4 initialState msgA 0 0 0).1.recentStability.length ∧
          stabilityTarget cfgC4 ≤
            (handlePulse cfgC4 initialState msgA 0 0 0).1.stableCount) :=
  ⟨by norm_num [cfgC4],
   c4_lock_iff cfgC4 initialState msgA 0 0 0 (by norm_num [cfgC4]) Reachable.init⟩

/-! ## C7: sticky discard -/

/-- C7: while stickyLock is enabled and the client is already locked,
handlePulse leaves the state identical and emits no event at all. -/
theorem c7_sticky_locked_discard (cfg : Config) (s : ClientState) (p : PulseMsg)
    (a tP tE : ℚ) (hs : cfg.stickyLock = true) (hl : s.locked = true) :
    handlePulse cfg s p a tP tE = (s, []) :=
  handlePulse_discard cfg s p a tP tE (by rw [hs, hl]; rfl)

/-- C7 witness: a sticky locked client discards a message unchanged. -/
theorem c7_sticky_locked_discard_witness :
    handlePulse ⟨5, 15, 2, 1 / 20, 25, true⟩ { initialState with locked := true }
        msgA 0 0 0 =
      ({ initialState with locked := true }, []) :=
  c7_sticky_locked_discard ⟨5, 15, 2, 1 / 20, 25, true⟩
    { initialState with locked := true } msgA 0 0 0 rfl rfl

/-! ## C8: disconnect/reconnect reset -/

/-- C8 counterexample: after one processed pulse, a disconnect without
preserveLock, the close event and a reconnect, the window and count are
indeed cleared, but the first message processed after reconnect carries
errorMs = 1000 (computed against the surviving pre-disconnect
prediction), not the null the claim demands. -/
theorem c8_counterexample :
    c8state.recentStability = [] ∧ c8state.stableCount = 0 ∧
      ∃ d, Event.pulse d ∈ (handlePulse cfgC4 c8state msgA 2000 2000 2000).2 ∧
        d.errorMs = some 1000 := by
  have hd : (cfgC4.stickyLock && c8state.locked) = false := by
    norm_num [c8state, s1c, handlePulse, coreUpdate, lockTransition, lockDecide,
      pushStability, computeError, applyBias, mkLastPulse, finiteOr, clamp,
      stabilityTarget, captureLockOrigin, disconnect, serverNowMs,
      elapsedSinceLockMs, initialState, cfgC4, msgA, connect, openEvent, closeEvent]
  refine ⟨?_, ?_, ?_⟩
  · norm_num [c8state, s1c, handlePulse, coreUpdate, lockTransition, lockDecide,
      pushStability, computeError, applyBias, mkLastPulse, finiteOr, clamp,
      stabilityTarget, captureLockOrigin, disconnect, serverNowMs,
      elapsedSinceLockMs, initialState, cfgC4, msgA, connect, openEvent, closeEvent]
  · norm_num [c8state, s1c, handlePulse, coreUpdate, lockTransition, lockDecide,
      pushStability, computeError, applyBias, mkLastPulse, finiteOr, clamp,
      stabilityTarget, captureLockOrigin, disconnect, serverNowMs,
      elapsedSinceLockMs, initialState, cfgC4, msgA, connect, openEvent, closeEvent]
  · obtain ⟨d, hmem, herr, _⟩ :=
      handlePulse_pulse_mem cfgC4 c8state msgA 2000 2000 2000 hd
    refine ⟨d, hmem, ?_⟩
    rw [herr]
    norm_num [c8state, s1c, handlePulse, coreUpdate, lockTransition, lockDecide,
      pushStability, computeError, applyBias, mkLastPulse, finiteOr, clamp,
      stabilityTarget, captureLockOrigin, disconnect, serverNowMs,
      elapsedSinceLockMs, initialState, cfgC4, msgA, connect, openEvent, closeEvent]

/-- C8 amended: a disconnect in which lock is not preserved, followed by
the close event and a reconnect, leaves the stability window empty,
stableCount 0 and locked false, but the previous prediction survives:
the first message processed after reconnect has errorMs equal to its
arrival time minus the pre-disconnect prediction (null only when no
pulse had been processed before the disconnect). -/
theorem c8_reconnect (s : ClientState) (pl : Bool)
    (hws : s.wsOpen = true) (hnp : (pl && s.locked) = false) :
    ((closeEvent (disconnect pl s)).1.recentStability = [] ∧
      (closeEvent (disconnect pl s)).1.stableCount = 0 ∧
      (closeEvent (disconnect pl s)).1.locked = false ∧
      (closeEvent (disconnect pl s)).1.lastPredictedArrivalMono =
        s.lastPredictedArrivalMono) ∧
    ∀ (cfg : Config) (p : PulseMsg) (a tP tE : ℚ),
      ∃ d, Event.pulse d ∈
          (handlePulse cfg
            (openEvent (connect (closeEvent (disconnect pl s)).1)).1 p a tP tE).2 ∧
        d.errorMs = s.lastPredictedArrivalMono.map (fun pp => a - pp) := by
  have hdc : disconnect pl s =
      { s with preserveStateOnClose := pl && s.locked,
               wsOpen := false, connected := false } := by
    rw [disconnect, if_neg (by simp [hws])]
  have hs3 : (closeEvent (disconnect pl s)).1 =
      { s with preserveStateOnClose := false, connected := false, wsOpen := false,
               locked := false, stableCount := 0, recentStability := [],
               lockOriginMonoMs := none, lockOriginServerMs := none } := by
    rw [hdc]
    simp [closeEvent, hnp]
  have hs4 : (openEvent (connect (closeEvent (disconnect pl s)).1)).1 =
      { s with preserveStateOnClose := false, connected := true, wsOpen := true,
               locked := false, stableCount := 0, recentStability := [],
               lockOriginMonoMs := none, lockOriginServerMs := none } := by
    rw [hs3]
    simp [connect, openEvent]
  refine ⟨⟨by rw [hs3], by rw [hs3], by rw [hs3], by rw [hs3]⟩, ?_⟩
  intro cfg p a tP tE
  have hd : (cfg.stickyLock &&
      (openEvent (connect (closeEvent (disconnect pl s)).1)).1.locked) = false := by
    rw [hs4]
    simp
  obtain ⟨d, hmem, herr, _⟩ := handlePulse_pulse_mem cfg _ p a tP tE hd
  refine ⟨d, hmem, ?_⟩
  rw [herr, computeError, hs4]

/-- C8 witness: the amended theorem instantiated on the concrete
one-pulse client: after the reset the window is empty but the first
post-reconnect message's error is measured against the old prediction. -/
theorem c8_reconnect_witness :
    ((closeEvent (disconnect false s1c)).1.recentStability = [] ∧
      (closeEvent (disconnect false s1c)).1.stableCount = 0 ∧
      (closeEvent (disconnect false s1c)).1.locked = false ∧
      (closeEvent (disconnect false s1c)).1.lastPredictedArrivalMono =
        s1c.lastPredictedArrivalMono) ∧
    ∃ d, Event.pulse d ∈
        (handlePulse cfgC4
          (openEvent (connect (closeEvent (disconnect false s1c)).1)).1
          msgA 2000 2000 2000).2 ∧
      d.errorMs = s1c.lastPredictedArrivalMono.map (fun pp => 2000 - pp) := by
  have hws : s1c.wsOpen = true := by
    norm_num [s1c, handlePulse, coreUpdate, lockTransition, lockDecide,
      pushStability, computeError, applyBias, mkLastPulse, finiteOr, clamp,
      stabilityTarget, captureLockOrigin, disconnect, serverNowMs,
      elapsedSinceLockMs, initialState, cfgC4, msgA, connect, openEvent]
  obtain ⟨h1, h2⟩ := c8_reconnect s1c false hws (by simp)
  exact ⟨h1, h2 cfgC4 msgA 2000 2000 2000⟩

/-! ## C9: numeric field fallbacks -/

/-- C9 counterexample: a pulse whose numeric fields are all missing:
period_ms, now_ms and next_ms are stored with their fallbacks, but seq
is stored as received (missing), not replaced by any numeric fallback:
the stored seq is none rather than the 0 the claim demands. -/
theorem c9_counterexample :
    (handlePulse cfgC4 initialState mNone 3 3 3).1.lastPulse =
        some ⟨none, 0, 0, 1000, 3⟩ ∧
      (⟨none, 0, 0, 1000, 3⟩ : LastPulse).seq ≠ some 0 := by
  constructor
  · norm_num [handlePulse, coreUpdate, lockTransition, lockDecide, pushStability,
      computeError, applyBias, mkLastPulse, finiteOr, clamp, stabilityTarget,
      captureLockOrigin, disconnect, serverNowMs, elapsedSinceLockMs, initialState,
      cfgC4, mNone]
  · simp

/-- C9 amended: for every pulse message processed past the sticky-lock
discard check, the stored snapshot replaces a missing or non-finite
period_ms by 1000 and missing or non-finite now_ms / next_ms by 0, while
seq is stored exactly as received without sanitization, and processing
always continues to a pulse event. -/
theorem c9_fallbacks (cfg : Config) (s : ClientState) (p : PulseMsg)
    (a tP tE : ℚ) (h : (cfg.stickyLock && s.locked) = false) :
    ∃ lp, (handlePulse cfg s p a tP tE).1.lastPulse = some lp ∧
      lp.seq = p.seq ∧
      (p.period_ms = none → lp.periodMs = 1000) ∧
      (p.now_ms = none → lp.serverNowMs = 0) ∧
      (p.next_ms = none → lp.serverNextMs = 0) ∧
      ∃ d, Event.pulse d ∈ (handlePulse cfg s p a tP tE).2 := by
  refine ⟨mkLastPulse p a, ?_, rfl, ?_, ?_, ?_, ?_⟩
  · rw [handlePulse_fst cfg s p a tP tE h]
    show (lockTransition cfg (coreUpdate cfg s p a) s.locked a).1.lastPulse = _
    rw [lockTransition_lastPulse, coreUpdate_lastPulse]
  · intro hn; simp [mkLastPulse, finiteOr, hn]
  · intro hn; simp [mkLastPulse, finiteOr, hn]
  · intro hn; simp [mkLastPulse, finiteOr, hn]
  · obtain ⟨d, hmem, _, _⟩ := handlePulse_pulse_mem cfg s p a tP tE h
    exact ⟨d, hmem⟩

/-- C9 witness: instantiated on the all-missing message. -/
theorem c9_fallbacks_witness :
    (cfgC4.stickyLock && initialState.locked) = false ∧
      ∃ lp, (handlePulse cfgC4 initialState mNone 3 3 3).1.lastPulse = some lp ∧
        lp.seq = mNone.seq ∧
        (mNone.period_ms = none → lp.periodMs = 1000) ∧
        (mNone.now_ms = none → lp.serverNowMs = 0) ∧
        (mNone.next_ms = none → lp.serverNextMs = 0) ∧
        ∃ d, Event.pulse d ∈ (handlePulse cfgC4 initialState mNone 3 3 3).2 :=
  ⟨rfl, c9_fallbacks cfgC4 initialState mNone 3 3 3 rfl⟩

/-! ## C10: lock origin invariant -/

/-- C10: in every reachable client state, a held lock comes with both
lock-origin fields populated, and serverNowMs then projects from the
lock origin (never reaching its lastPulse fallback branch). -/
theorem c10_lock_origin (cfg : Config) (s : ClientState)
    (hr : Reachable cfg s) (hl : s.locked = true) :
    ∃ m v, s.lockOriginMonoMs = some m ∧ s.lockOriginServerMs = some v ∧
      ∀ t : ℚ, serverNowMs s t = some (v + (t - m)) := by
  obtain ⟨m, v, hm, hv⟩ := reachable_origin cfg hr hl
  refine ⟨m, v, hm, hv, fun t => ?_⟩
  simp [serverNowMs, hl, hm, hv]

/-- C10 witness: a client that locks after two noiseless pulses; its
projection at local time 1234 is derived from the captured origin. -/
theorem c10_lock_origin_witness :
    (handlePulse cfgLck (handlePulse cfgLck initialState msgA 0 0 0).1
        msgA 1000 1000 1000).1.locked = true ∧
      ∃ m v,
        (handlePulse cfgLck (handlePulse cfgLck initialState msgA 0 0 0).1
            msgA 1000 1000 1000).1.lockOriginMonoMs = some m ∧
        (handlePulse cfgLck (handlePulse cfgLck initialState msgA 0 0 0).1
            msgA 1000 1000 1000).1.lockOriginServerMs = some v ∧
        serverNowMs
          (handlePulse cfgLck (handlePulse cfgLck initialState msgA 0 0 0).1
            msgA 1000 1000 1000).1 1234 = some (v + (1234 - m)) := by
  have hr : Reachable cfgLck
      (handlePulse cfgLck (handlePulse cfgLck initialState msgA 0 0 0).1
        msgA 1000 1000 1000).1 :=
    Reachable.msg _ _ _ _ _ (Reachable.msg _ _ _ _ _ Reachable.init)
  have hl : (handlePulse cfgLck (handlePulse cfgLck initialState msgA 0 0 0).1
      msgA 1000 1000 1000).1.locked = true := by
    norm_num [handlePulse, coreUpdate, lockTransition, lockDecide, pushStability,
      computeError, applyBias, mkLastPulse, finiteOr, clamp, stabilityTarget,
      captureLockOrigin, disconnect, serverNowMs, elapsedSinceLockMs, initialState,
      cfgLck, msgA]
  obtain ⟨m, v, hm, hv, hp⟩ := c10_lock_origin cfgLck _ hr hl
  exact ⟨hl, m, v, hm, hv, hp 1234⟩

end Pulse
